import Mathlib

/-!
Verification of the provider matching and ranking engine
(`src/lib/matching/algorithm.ts` together with the enumerations of
`src/lib/constants.ts`).

The TypeScript core is a pure function: filter the provider pool by
status/service/city, score each eligible provider with a 100-point
weighted formula, round with `Math.round`, attach badges, sort by score
descending (JavaScript `Array.prototype.sort` is stable), and slice a
top-N prefix.  JavaScript numbers are modelled as rationals (ℚ); the
nullable fields `rating` and `total_reviews` are modelled as `Option ℚ`,
with the code's `x || 0` fallback modelled as `Option.getD _ 0` (on
numbers the two agree: `0 || 0` is `0`).  `Math.round x` is
`⌊x + 1/2⌋` (round half toward positive infinity), and
`Array.prototype.slice(0, e)` with a possibly negative end index `e` is
modelled by `jsSliceFromZero`.  The stable sort is modelled by
`List.insertionSort`, whose `orderedInsert` places each element before
the first existing element of less-or-equal score, which is exactly the
stable descending order produced by a stable comparison sort on the
comparator `(a, b) => b.matchScore - a.matchScore`.
-/

namespace JobMatch

/-- Enumeration `SERVICE_TYPES = ['cleaning', 'landscaping', 'pool']`
from `src/lib/constants.ts`. -/
inductive ServiceType
  | cleaning
  | landscaping
  | pool
deriving DecidableEq, Repr

/-- Enumeration `PRICING_TIERS = ['budget', 'standard', 'premium']`
from `src/lib/constants.ts`. -/
inductive PricingTier
  | budget
  | standard
  | premium
deriving DecidableEq, Repr

/-- The `Provider` interface of `src/lib/matching/algorithm.ts`.
`rating` and `total_reviews` are `number | null` in the source, hence
`Option ℚ` here; `status` is a plain string. -/
structure Provider where
  id : String
  business_name : String
  services : List ServiceType
  cities : List String
  pricing_tier : PricingTier
  years_experience : ℚ
  insurance_verified : Bool
  rating : Option ℚ
  total_reviews : Option ℚ
  status : String
deriving DecidableEq, Repr

/-- The `MatchingInput` interface of `src/lib/matching/algorithm.ts`. -/
structure MatchingInput where
  serviceType : ServiceType
  city : String
  providers : List Provider
deriving DecidableEq, Repr

/-- The `MatchedProvider` interface: a provider together with the two
derived fields `matchScore` and `badges`.  The source spreads the
provider's fields into the result object; here the provider is kept as
one field. -/
structure MatchedProvider where
  provider : Provider
  matchScore : ℤ
  badges : List String
deriving DecidableEq, Repr

/-- The eligibility filter of `matchProviders` (lines 35-40 of
`algorithm.ts`): keep providers with `status === 'approved'` whose
`services` include the requested service type and whose `cities`
include the requested city. -/
def filterEligible (serviceType : ServiceType) (city : String)
    (providers : List Provider) : List Provider :=
  providers.filter fun p =>
    p.status = "approved" ∧ serviceType ∈ p.services ∧ city ∈ p.cities

/-- The code's `provider.rating || 0` fallback. -/
def ratingOrZero (p : Provider) : ℚ :=
  p.rating.getD 0

/-- The code's `provider.total_reviews || 0` fallback. -/
def reviewsOrZero (p : Provider) : ℚ :=
  p.total_reviews.getD 0

/-- JavaScript `Math.round`: round to the nearest integer, half toward
positive infinity, i.e. `⌊x + 1/2⌋`. -/
def jsRound (q : ℚ) : ℤ :=
  ⌊q + 1/2⌋

/-- The raw (unrounded) 100-point score accumulated by `matchProviders`
(lines 43-67 of `algorithm.ts`): flat 30 for the city, `(rating/5)*25`,
`min(years/10, 1)*20`, `min(reviews/50, 1)*15`, and 10 for verified
insurance. -/
def rawScore (p : Provider) : ℚ :=
  30 + (ratingOrZero p / 5) * 25 + min (p.years_experience / 10) 1 * 20
    + min (reviewsOrZero p / 50) 1 * 15
    + (if p.insurance_verified then 10 else 0)

/-- The rounded `matchScore` field assigned by `matchProviders`:
`Math.round(score)`. -/
def matchScoreOf (p : Provider) : ℤ :=
  jsRound (rawScore p)

/-- Badge assignment of `matchProviders` (lines 69-72 of
`algorithm.ts`), in the order the code pushes them. -/
def badgesOf (p : Provider) : List String :=
  (if (4.8 : ℚ) ≤ ratingOrZero p then ["Top Rated"] else [])
    ++ (if p.pricing_tier = PricingTier.budget then ["Best Value"] else [])
    ++ (if (25 : ℚ) ≤ reviewsOrZero p ∧ (4.5 : ℚ) ≤ ratingOrZero p then
          ["Most Reliable"] else [])

/-- The object `{ ...provider, matchScore: Math.round(score), badges }`
built for each eligible provider. -/
def scoreProvider (p : Provider) : MatchedProvider :=
  { provider := p, matchScore := matchScoreOf p, badges := badgesOf p }

/-- The order used by the final sort: `a` may come before `b` exactly
when `b.matchScore ≤ a.matchScore` (descending scores). -/
def scoreGE (a b : MatchedProvider) : Prop :=
  b.matchScore ≤ a.matchScore

instance : DecidableRel scoreGE :=
  fun a b => inferInstanceAs (Decidable (b.matchScore ≤ a.matchScore))

instance : IsTotal MatchedProvider scoreGE :=
  ⟨fun a b => le_total b.matchScore a.matchScore⟩

instance : IsTrans MatchedProvider scoreGE :=
  ⟨fun _ _ _ h₁ h₂ => le_trans h₂ h₁⟩

/-- The stable descending sort `scoredProviders.sort((a, b) =>
b.matchScore - a.matchScore)`; `Array.prototype.sort` is stable, and a
stable sort is extensionally the insertion sort that inserts each
element before the first element of less-or-equal score. -/
def sortByScoreDesc (l : List MatchedProvider) : List MatchedProvider :=
  List.insertionSort scoreGE l

/-- The exported `matchProviders` function (lines 29-83 of
`algorithm.ts`): filter, score, sort descending by `matchScore`. -/
def matchProviders (input : MatchingInput) : List MatchedProvider :=
  sortByScoreDesc
    ((filterEligible input.serviceType input.city input.providers).map
      scoreProvider)

/-- JavaScript `l.slice(0, e)`: for `0 ≤ e` the first `min e l.length`
elements, for `e < 0` the first `max (l.length + e) 0` elements. -/
def jsSliceFromZero {α : Type} (l : List α) (e : ℤ) : List α :=
  if e < 0 then l.take ((l.length : ℤ) + e).toNat else l.take e.toNat

/-- The exported `getTopProviders` function (lines 88-94 of
`algorithm.ts`): `matchProviders(input).slice(0, limit)`. -/
def getTopProviders (input : MatchingInput) (limit : ℤ) : List MatchedProvider :=
  jsSliceFromZero (matchProviders input) limit

/-- A call of `getTopProviders` with the `limit` argument omitted; the
TypeScript signature declares the default value `limit = 3`. -/
def getTopProvidersDefault (input : MatchingInput) : List MatchedProvider :=
  getTopProviders input 3

/-- Round to the nearest integer with ties going away from zero, as the
specification's wording prescribes for the final score. -/
def roundHalfAwayFromZero (q : ℚ) : ℤ :=
  if 0 ≤ q then ⌊q + 1/2⌋ else -⌊-q + 1/2⌋

/-- The scoring formula exactly as the specification states it, for
comparison with the code's `rawScore`: `30 + (r/5)*25 +
min(years_experience/10, 1)*20 + min(v/50, 1)*15 + (insurance ? 10 : 0)`
with absent `rating`/`total_reviews` treated as 0. -/
def specScore (p : Provider) : ℚ :=
  30 + (p.rating.getD 0 / 5) * 25
    + min (p.years_experience / 10) 1 * 20
    + min (p.total_reviews.getD 0 / 50) 1 * 15
    + (if p.insurance_verified then 10 else 0)

/-- Membership in the eligibility filter unfolds to the three
conditions of lines 35-40. -/
lemma mem_filterEligible {s : ServiceType} {c : String} {ps : List Provider}
    {p : Provider} :
    p ∈ filterEligible s c ps ↔
      p ∈ ps ∧ p.status = "approved" ∧ s ∈ p.services ∧ c ∈ p.cities := by
  simp [filterEligible]

/-- The sort step permutes the scored list. -/
lemma perm_matchProviders (input : MatchingInput) :
    (matchProviders input).Perm
      ((filterEligible input.serviceType input.city input.providers).map
        scoreProvider) :=
  List.perm_insertionSort _ _

/-- Membership in the matched output. -/
lemma mem_matchProviders {input : MatchingInput} {m : MatchedProvider} :
    m ∈ matchProviders input ↔
      ∃ p, p ∈ filterEligible input.serviceType input.city input.providers ∧
        scoreProvider p = m := by
  rw [(perm_matchProviders input).mem_iff, List.mem_map]

/-- The matched output is sorted by `matchScore` descending. -/
lemma sorted_matchProviders (input : MatchingInput) :
    List.Sorted scoreGE (matchProviders input) :=
  List.sorted_insertionSort _ _

/-- Every matched record carries the score and badges computed from its
own provider. -/
lemma matched_fields {input : MatchingInput} {m : MatchedProvider}
    (hm : m ∈ matchProviders input) :
    m.matchScore = matchScoreOf m.provider ∧ m.badges = badgesOf m.provider := by
  obtain ⟨p, -, rfl⟩ := mem_matchProviders.mp hm
  exact ⟨rfl, rfl⟩

/-- Inserting into a list moves the new element past strictly greater
scores only, so the sublist at any fixed score value gains the new
element at its front exactly when the scores agree. -/
lemma filter_orderedInsert (c : ℤ) (m : MatchedProvider)
    (l : List MatchedProvider) :
    (List.orderedInsert scoreGE m l).filter (fun a => a.matchScore == c) =
      if m.matchScore = c then
        m :: l.filter (fun a => a.matchScore == c)
      else l.filter (fun a => a.matchScore == c) := by
  induction l with
  | nil =>
      by_cases hm : m.matchScore = c <;>
        simp [List.orderedInsert, List.filter_cons, hm]
  | cons x xs ih =>
      by_cases hx : scoreGE m x
      · by_cases hm : m.matchScore = c <;>
          simp [List.orderedInsert, hx, List.filter_cons, hm]
      · by_cases hm : m.matchScore = c
        · have hxc : ¬ x.matchScore = c := by
            intro h
            exact hx (le_of_eq (h.trans hm.symm))
          simp [List.orderedInsert, hx, List.filter_cons, hm, hxc, ih]
        · simp [List.orderedInsert, hx, List.filter_cons, hm, ih]

/-- Stability of the descending sort: for every score value, the
subsequence of elements carrying that score is unchanged by sorting. -/
lemma filter_sortByScoreDesc (c : ℤ) (l : List MatchedProvider) :
    (sortByScoreDesc l).filter (fun a => a.matchScore == c) =
      l.filter (fun a => a.matchScore == c) := by
  induction l with
  | nil => rfl
  | cons x xs ih =>
      show (List.orderedInsert scoreGE x
        (List.insertionSort scoreGE xs)).filter _ = _
      rw [filter_orderedInsert]
      by_cases hx : x.matchScore = c <;>
        simp [hx, List.filter_cons, ih.symm, sortByScoreDesc]

/-- Bounds on the rating fallback under the data model's rating range. -/
lemma ratingOrZero_bounds {p : Provider}
    (hr : ∀ r, p.rating = some r → 0 ≤ r ∧ r ≤ 5) :
    0 ≤ ratingOrZero p ∧ ratingOrZero p ≤ 5 := by
  cases h : p.rating with
  | none =>
      rw [show ratingOrZero p = 0 from by simp [ratingOrZero, h]]
      norm_num
  | some r => simpa [ratingOrZero, h] using hr r h

/-- The review-count fallback is non-negative when present counts are. -/
lemma reviewsOrZero_nonneg {p : Provider}
    (hv : ∀ v, p.total_reviews = some v → 0 ≤ v) :
    0 ≤ reviewsOrZero p := by
  cases h : p.total_reviews with
  | none => simp [reviewsOrZero, h]
  | some v => simpa [reviewsOrZero, h] using hv v h

/-- The unrounded score lies in `[30, 100]` on data-model-valid
providers. -/
lemma rawScore_bounds {p : Provider}
    (hr : ∀ r, p.rating = some r → 0 ≤ r ∧ r ≤ 5)
    (he : 0 ≤ p.years_experience)
    (hv : ∀ v, p.total_reviews = some v → 0 ≤ v) :
    30 ≤ rawScore p ∧ rawScore p ≤ 100 := by
  obtain ⟨hr0, hr5⟩ := ratingOrZero_bounds hr
  have hv0 := reviewsOrZero_nonneg hv
  have he1 : min (p.years_experience / 10) 1 ≤ 1 := min_le_right _ _
  have he0 : 0 ≤ min (p.years_experience / 10) 1 :=
    le_min (by positivity) zero_le_one
  have hw1 : min (reviewsOrZero p / 50) 1 ≤ 1 := min_le_right _ _
  have hw0 : 0 ≤ min (reviewsOrZero p / 50) 1 :=
    le_min (by positivity) zero_le_one
  unfold rawScore
  cases hins : p.insurance_verified <;>
    simp only [hins, Bool.false_eq_true, if_false, if_true] <;>
    constructor <;> linarith

/-- Rounding preserves non-negativity. -/
lemma jsRound_nonneg {q : ℚ} (h : 0 ≤ q) : 0 ≤ jsRound q :=
  Int.le_floor.mpr (by push_cast; linarith)

/-- Rounding keeps scores at most 100. -/
lemma jsRound_le_100 {q : ℚ} (h : q ≤ 100) : jsRound q ≤ 100 := by
  have h1 : jsRound q ≤ ⌊(100 : ℚ) + 1/2⌋ := Int.floor_mono (by linarith)
  have h2 : ⌊(100 : ℚ) + 1/2⌋ = 100 := by
    rw [Int.floor_eq_iff]
    norm_num
  omega

/-- Rounding is monotone. -/
lemma jsRound_mono {a b : ℚ} (h : a ≤ b) : jsRound a ≤ jsRound b :=
  Int.floor_mono (by linarith)

/-- On non-negative inputs the half-away-from-zero rounding agrees with
JavaScript's half-up rounding. -/
lemma roundHalfAwayFromZero_eq_jsRound {q : ℚ} (h : 0 ≤ q) :
    roundHalfAwayFromZero q = jsRound q := by
  simp [roundHalfAwayFromZero, jsRound, h]

/-- The specification's formula and the code's accumulation are the
same rational expression. -/
lemma specScore_eq_rawScore (p : Provider) : specScore p = rawScore p :=
  rfl

/-- Slicing with a non-negative end index is a prefix. -/
lemma getTopProviders_natCast (input : MatchingInput) (n : ℕ) :
    getTopProviders input (n : ℤ) = (matchProviders input).take n := by
  unfold getTopProviders jsSliceFromZero
  rw [if_neg (by omega)]
  norm_num

/-- A data-model-valid approved provider used in concrete checks. -/
def pGood : Provider :=
  { id := "p1", business_name := "Desert Clean Co",
    services := [ServiceType.cleaning], cities := ["Gilbert"],
    pricing_tier := PricingTier.budget, years_experience := 10,
    insurance_verified := true, rating := some 5, total_reviews := some 50,
    status := "approved" }

/-- A pending provider, excluded by the status filter. -/
def pPending : Provider :=
  { pGood with id := "p2", status := "pending" }

/-- A sample request whose pool holds one eligible and one pending
provider. -/
def inputGood : MatchingInput :=
  { serviceType := ServiceType.cleaning, city := "Gilbert",
    providers := [pGood, pPending] }

/-- A sample request with no eligible provider. -/
def inputEmptyPool : MatchingInput :=
  { serviceType := ServiceType.cleaning, city := "Gilbert",
    providers := [pPending] }

/-- The sample request matches exactly its one eligible provider. -/
lemma matchProviders_inputGood :
    matchProviders inputGood = [scoreProvider pGood] :=
  rfl

/-- C1: every provider in the matched output carries a matchScore equal
to the round-half-away-from-zero of `30 + (r/5)*25 +
min(years_experience/10, 1)*20 + min(v/50, 1)*15 + (insurance ? 10 :
0)`, with absent rating and review count treated as 0; the experience
and review components saturate at 10 years and 50 reviews through the
min, and the flat 30-point city component is part of the formula.  The
provider's fields are assumed to satisfy the data model (rating in [0,5]
when present, non-negative experience and review count), under which the
unrounded sum is non-negative and JavaScript's `Math.round` agrees with
rounding half away from zero. -/
theorem C1_matchScore_formula (input : MatchingInput) (m : MatchedProvider)
    (hm : m ∈ matchProviders input)
    (hr : ∀ r, m.provider.rating = some r → 0 ≤ r ∧ r ≤ 5)
    (he : 0 ≤ m.provider.years_experience)
    (hv : ∀ v, m.provider.total_reviews = some v → 0 ≤ v) :
    m.matchScore = roundHalfAwayFromZero (specScore m.provider) := by
  obtain ⟨hs, -⟩ := matched_fields hm
  have h30 := (rawScore_bounds hr he hv).1
  rw [hs, specScore_eq_rawScore,
    roundHalfAwayFromZero_eq_jsRound (by linarith)]
  rfl

/-- Witness for C1 at a concrete request. -/
theorem C1_matchScore_formula_witness :
    scoreProvider pGood ∈ matchProviders inputGood ∧
      (scoreProvider pGood).matchScore =
        roundHalfAwayFromZero (specScore (scoreProvider pGood).provider) := by
  have hm : scoreProvider pGood ∈ matchProviders inputGood := by
    rw [matchProviders_inputGood]
    exact List.mem_singleton_self _
  refine ⟨hm, C1_matchScore_formula _ _ hm ?_ ?_ ?_⟩
  · intro r h
    have h' : some (5 : ℚ) = some r := h
    injection h' with h''
    rw [← h'']
    norm_num
  · show (0 : ℚ) ≤ 10
    norm_num
  · intro v h
    have h' : some (50 : ℚ) = some v := h
    injection h' with h''
    rw [← h'']
    norm_num

/-- C2: a provider appears in the matched output exactly when it is in
the input pool, has status `approved`, offers the requested service,
and operates in the requested city. -/
theorem C2_eligibility (input : MatchingInput) (p : Provider) :
    (∃ m ∈ matchProviders input, m.provider = p) ↔
      p ∈ input.providers ∧ p.status = "approved" ∧
        input.serviceType ∈ p.services ∧ input.city ∈ p.cities := by
  constructor
  · rintro ⟨m, hm, hp⟩
    obtain ⟨q, hq, rfl⟩ := mem_matchProviders.mp hm
    have hqp : q = p := hp
    subst hqp
    exact mem_filterEligible.mp hq
  · intro h
    exact ⟨scoreProvider p,
      mem_matchProviders.mpr ⟨p, mem_filterEligible.mpr h, rfl⟩, rfl⟩

/-- C3: on data-model-valid fields (rating in [0,5] when present,
non-negative experience and review count), every assigned matchScore
lies in [0, 100]. -/
theorem C3_score_bounds (input : MatchingInput) (m : MatchedProvider)
    (hm : m ∈ matchProviders input)
    (hr : ∀ r, m.provider.rating = some r → 0 ≤ r ∧ r ≤ 5)
    (he : 0 ≤ m.provider.years_experience)
    (hv : ∀ v, m.provider.total_reviews = some v → 0 ≤ v) :
    0 ≤ m.matchScore ∧ m.matchScore ≤ 100 := by
  obtain ⟨hs, -⟩ := matched_fields hm
  obtain ⟨h30, h100⟩ := rawScore_bounds hr he hv
  rw [hs]
  exact ⟨jsRound_nonneg (by linarith), jsRound_le_100 h100⟩

/-- Witness for C3 at a concrete request. -/
theorem C3_score_bounds_witness :
    scoreProvider pGood ∈ matchProviders inputGood ∧
      0 ≤ (scoreProvider pGood).matchScore ∧
        (scoreProvider pGood).matchScore ≤ 100 := by
  have hm : scoreProvider pGood ∈ matchProviders inputGood := by
    rw [matchProviders_inputGood]
    exact List.mem_singleton_self _
  refine ⟨hm, C3_score_bounds _ _ hm ?_ ?_ ?_⟩
  · intro r h
    have h' : some (5 : ℚ) = some r := h
    injection h' with h''
    rw [← h'']
    norm_num
  · show (0 : ℚ) ≤ 10
    norm_num
  · intro v h
    have h' : some (50 : ℚ) = some v := h
    injection h' with h''
    rw [← h'']
    norm_num

/-- C4: the matched output is the scored eligible list arranged by a
stable descending sort on matchScore: it is a permutation of the scored
eligible list, consecutive scores are non-increasing (`scoreGE`), and
for every score value the subsequence carrying that score equals the
one in the scored eligible list, i.e. equal-score providers keep their
input order. -/
theorem C4_stable_sort (input : MatchingInput) :
    List.Sorted scoreGE (matchProviders input) ∧
      (matchProviders input).Perm
        ((filterEligible input.serviceType input.city input.providers).map
          scoreProvider) ∧
      ∀ c : ℤ,
        (matchProviders input).filter (fun m => m.matchScore == c) =
          ((filterEligible input.serviceType input.city
            input.providers).map scoreProvider).filter
            (fun m => m.matchScore == c) :=
  ⟨sorted_matchProviders input, perm_matchProviders input,
    fun c => filter_sortByScoreDesc c _⟩

/-- The Top Rated badge is present exactly when the rating fallback
reaches 4.8. -/
lemma mem_badgesOf_topRated (p : Provider) :
    "Top Rated" ∈ badgesOf p ↔ (4.8 : ℚ) ≤ ratingOrZero p := by
  unfold badgesOf
  by_cases h1 : (4.8 : ℚ) ≤ ratingOrZero p <;>
    by_cases h2 : p.pricing_tier = PricingTier.budget <;>
      by_cases h3 : (25 : ℚ) ≤ reviewsOrZero p ∧ (4.5 : ℚ) ≤ ratingOrZero p <;>
        simp [h1, h2, h3]

/-- The Best Value badge is present exactly on the budget tier. -/
lemma mem_badgesOf_bestValue (p : Provider) :
    "Best Value" ∈ badgesOf p ↔ p.pricing_tier = PricingTier.budget := by
  unfold badgesOf
  by_cases h1 : (4.8 : ℚ) ≤ ratingOrZero p <;>
    by_cases h2 : p.pricing_tier = PricingTier.budget <;>
      by_cases h3 : (25 : ℚ) ≤ reviewsOrZero p ∧ (4.5 : ℚ) ≤ ratingOrZero p <;>
        simp [h1, h2, h3]

/-- The Most Reliable badge is present exactly when both fallback
thresholds are met. -/
lemma mem_badgesOf_mostReliable (p : Provider) :
    "Most Reliable" ∈ badgesOf p ↔
      (25 : ℚ) ≤ reviewsOrZero p ∧ (4.5 : ℚ) ≤ ratingOrZero p := by
  unfold badgesOf
  by_cases h1 : (4.8 : ℚ) ≤ ratingOrZero p <;>
    by_cases h2 : p.pricing_tier = PricingTier.budget <;>
      by_cases h3 : (25 : ℚ) ≤ reviewsOrZero p ∧ (4.5 : ℚ) ≤ ratingOrZero p <;>
        simp [h1, h2, h3]

/-- A positive threshold on the rating fallback is met exactly when the
rating is present and meets it. -/
lemma le_ratingOrZero_iff {p : Provider} {x : ℚ} (hx : 0 < x) :
    x ≤ ratingOrZero p ↔ ∃ r, p.rating = some r ∧ x ≤ r := by
  cases h : p.rating with
  | none =>
      simp only [ratingOrZero, h, Option.getD_none]
      constructor
      · intro hle
        exact absurd hle (not_le.mpr hx)
      · rintro ⟨r, hr, -⟩
        cases hr
  | some r => simp [ratingOrZero, h]

/-- C5: for a non-negative limit N, the top-N wrapper returns the first
N entries of the ranked list; a limit at least the list's length
returns the whole ranked list, and limit 0 returns the empty list. -/
theorem C5_topN (input : MatchingInput) (n : ℕ) :
    getTopProviders input (n : ℤ) = (matchProviders input).take n ∧
      ((matchProviders input).length ≤ n →
        getTopProviders input (n : ℤ) = matchProviders input) ∧
      getTopProviders input 0 = [] := by
  refine ⟨getTopProviders_natCast input n, fun h => ?_, ?_⟩
  · rw [getTopProviders_natCast input n, List.take_of_length_le h]
  · simpa using getTopProviders_natCast input 0

/-- Witness for C5 at a concrete request with limit 5 above the ranked
list's length. -/
theorem C5_topN_witness :
    (matchProviders inputGood).length ≤ 5 ∧
      getTopProviders inputGood ((5 : ℕ) : ℤ) = matchProviders inputGood := by
  have h : (matchProviders inputGood).length ≤ 5 := by
    rw [matchProviders_inputGood]
    norm_num
  exact ⟨h, (C5_topN inputGood 5).2.1 h⟩

/-- C6: badges are computed from the provider's own fields alone
(`badgesOf`): Top Rated is carried exactly when the rating is present
and at least 4.8, Best Value exactly on the budget tier, Most Reliable
exactly when the review-count fallback reaches 25 and the rating
fallback reaches 4.5; the matchScore is a function of the provider
alone as well, so badges never influence it. -/
theorem C6_badges (input : MatchingInput) (m : MatchedProvider)
    (hm : m ∈ matchProviders input) :
    m.badges = badgesOf m.provider ∧
      ("Top Rated" ∈ m.badges ↔
        ∃ r, m.provider.rating = some r ∧ (4.8 : ℚ) ≤ r) ∧
      ("Best Value" ∈ m.badges ↔
        m.provider.pricing_tier = PricingTier.budget) ∧
      ("Most Reliable" ∈ m.badges ↔
        (25 : ℚ) ≤ reviewsOrZero m.provider ∧
          (4.5 : ℚ) ≤ ratingOrZero m.provider) ∧
      m.matchScore = matchScoreOf m.provider := by
  obtain ⟨hs, hb⟩ := matched_fields hm
  rw [hb]
  refine ⟨rfl, ?_, mem_badgesOf_bestValue _, mem_badgesOf_mostReliable _, hs⟩
  rw [mem_badgesOf_topRated, le_ratingOrZero_iff (by norm_num)]

/-- Witness for C6 at a concrete request. -/
theorem C6_badges_witness :
    scoreProvider pGood ∈ matchProviders inputGood ∧
      "Top Rated" ∈ (scoreProvider pGood).badges := by
  have hm : scoreProvider pGood ∈ matchProviders inputGood := by
    rw [matchProviders_inputGood]
    exact List.mem_singleton_self _
  refine ⟨hm, ((C6_badges inputGood _ hm).2.1).mpr ⟨5, rfl, by norm_num⟩⟩

/-- C7: the assigned score is monotone in each of the four scored
fields separately: raising a present rating, the years of experience,
or a present review count, or turning insurance verification on, never
lowers `matchScoreOf`, the score `matchProviders` assigns. -/
theorem C7_monotone (p : Provider) :
    (∀ r₁ r₂ : ℚ, r₁ ≤ r₂ →
      matchScoreOf { p with rating := some r₁ } ≤
        matchScoreOf { p with rating := some r₂ }) ∧
    (∀ e₁ e₂ : ℚ, e₁ ≤ e₂ →
      matchScoreOf { p with years_experience := e₁ } ≤
        matchScoreOf { p with years_experience := e₂ }) ∧
    (∀ v₁ v₂ : ℚ, v₁ ≤ v₂ →
      matchScoreOf { p with total_reviews := some v₁ } ≤
        matchScoreOf { p with total_reviews := some v₂ }) ∧
    matchScoreOf { p with insurance_verified := false } ≤
      matchScoreOf { p with insurance_verified := true } := by
  refine ⟨fun r₁ r₂ hr => jsRound_mono ?_, fun e₁ e₂ he => jsRound_mono ?_,
    fun v₁ v₂ hv => jsRound_mono ?_, jsRound_mono ?_⟩
  · have e1 : rawScore { p with rating := some r₁ } =
        30 + (r₁ / 5) * 25 + min (p.years_experience / 10) 1 * 20
          + min (p.total_reviews.getD 0 / 50) 1 * 15
          + (if p.insurance_verified then 10 else 0) := rfl
    have e2 : rawScore { p with rating := some r₂ } =
        30 + (r₂ / 5) * 25 + min (p.years_experience / 10) 1 * 20
          + min (p.total_reviews.getD 0 / 50) 1 * 15
          + (if p.insurance_verified then 10 else 0) := rfl
    rw [e1, e2]
    linarith
  · have e1 : rawScore { p with years_experience := e₁ } =
        30 + (p.rating.getD 0 / 5) * 25 + min (e₁ / 10) 1 * 20
          + min (p.total_reviews.getD 0 / 50) 1 * 15
          + (if p.insurance_verified then 10 else 0) := rfl
    have e2 : rawScore { p with years_experience := e₂ } =
        30 + (p.rating.getD 0 / 5) * 25 + min (e₂ / 10) 1 * 20
          + min (p.total_reviews.getD 0 / 50) 1 * 15
          + (if p.insurance_verified then 10 else 0) := rfl
    have hmin : min (e₁ / 10) 1 ≤ min (e₂ / 10) 1 :=
      min_le_min (by linarith) le_rfl
    have hmul : min (e₁ / 10) 1 * 20 ≤ min (e₂ / 10) 1 * 20 :=
      mul_le_mul_of_nonneg_right hmin (by norm_num)
    rw [e1, e2]
    linarith
  · have e1 : rawScore { p with total_reviews := some v₁ } =
        30 + (p.rating.getD 0 / 5) * 25 + min (p.years_experience / 10) 1 * 20
          + min (v₁ / 50) 1 * 15
          + (if p.insurance_verified then 10 else 0) := rfl
    have e2 : rawScore { p with total_reviews := some v₂ } =
        30 + (p.rating.getD 0 / 5) * 25 + min (p.years_experience / 10) 1 * 20
          + min (v₂ / 50) 1 * 15
          + (if p.insurance_verified then 10 else 0) := rfl
    have hmin : min (v₁ / 50) 1 ≤ min (v₂ / 50) 1 :=
      min_le_min (by linarith) le_rfl
    have hmul : min (v₁ / 50) 1 * 15 ≤ min (v₂ / 50) 1 * 15 :=
      mul_le_mul_of_nonneg_right hmin (by norm_num)
    rw [e1, e2]
    linarith
  · have e1 : rawScore { p with insurance_verified := false } =
        30 + (p.rating.getD 0 / 5) * 25 + min (p.years_experience / 10) 1 * 20
          + min (p.total_reviews.getD 0 / 50) 1 * 15 + 0 := rfl
    have e2 : rawScore { p with insurance_verified := true } =
        30 + (p.rating.getD 0 / 5) * 25 + min (p.years_experience / 10) 1 * 20
          + min (p.total_reviews.getD 0 / 50) 1 * 15 + 10 := rfl
    rw [e1, e2]
    linarith

/-- Witness for C7 at a concrete provider and rating pair. -/
theorem C7_monotone_witness :
    (3 : ℚ) ≤ 4 ∧
      matchScoreOf { pGood with rating := some 3 } ≤
        matchScoreOf { pGood with rating := some 4 } :=
  ⟨by norm_num, (C7_monotone pGood).1 3 4 (by norm_num)⟩

/-- C8: the matcher is a total function of its input: an empty pool
gives the empty list, an empty eligible set gives the empty list, a
missing rating or review count scores exactly as a zero one, and every
eligible provider is scored (the output has the eligible set's length,
so records are never dropped for missing optional fields). -/
theorem C8_total :
    (∀ (s : ServiceType) (c : String),
      matchProviders { serviceType := s, city := c, providers := [] } = []) ∧
    (∀ input : MatchingInput,
      filterEligible input.serviceType input.city input.providers = [] →
        matchProviders input = []) ∧
    (∀ p : Provider,
      rawScore { p with rating := none } =
          rawScore { p with rating := some 0 } ∧
        rawScore { p with total_reviews := none } =
          rawScore { p with total_reviews := some 0 }) ∧
    (∀ input : MatchingInput,
      (matchProviders input).length =
        (filterEligible input.serviceType input.city
          input.providers).length) := by
  refine ⟨fun s c => rfl, fun input h => ?_, fun p => ⟨rfl, rfl⟩,
    fun input => ?_⟩
  · unfold matchProviders
    rw [h]
    rfl
  · rw [(perm_matchProviders input).length_eq, List.length_map]

/-- Witness for C8 at a concrete request whose eligible set is empty. -/
theorem C8_total_witness :
    filterEligible inputEmptyPool.serviceType inputEmptyPool.city
        inputEmptyPool.providers = [] ∧
      matchProviders inputEmptyPool = [] := by
  have h : filterEligible inputEmptyPool.serviceType inputEmptyPool.city
      inputEmptyPool.providers = [] := rfl
  exact ⟨h, C8_total.2.1 inputEmptyPool h⟩

/-- C9: a call without a limit argument uses the declared default of 3,
so it returns the first three entries of the ranked list (the whole
list when shorter). -/
theorem C9_default_limit (input : MatchingInput) :
    getTopProvidersDefault input = getTopProviders input 3 ∧
      getTopProvidersDefault input = (matchProviders input).take 3 := by
  refine ⟨rfl, ?_⟩
  exact getTopProviders_natCast input 3

/-- C10: a negative limit follows JavaScript slice semantics: it drops
the last k ranked entries rather than erroring or returning the whole
list, and yields the empty list when k reaches the list's length. -/
theorem C10_negative_limit (input : MatchingInput) (k : ℕ) (hk : 0 < k) :
    getTopProviders input (-(k : ℤ)) =
        (matchProviders input).take ((matchProviders input).length - k) ∧
      ((matchProviders input).length ≤ k →
        getTopProviders input (-(k : ℤ)) = []) := by
  have h1 : getTopProviders input (-(k : ℤ)) =
      (matchProviders input).take ((matchProviders input).length - k) := by
    unfold getTopProviders jsSliceFromZero
    rw [if_pos (by omega)]
    congr 1
    omega
  refine ⟨h1, fun h => ?_⟩
  rw [h1, show (matchProviders input).length - k = 0 by omega, List.take_zero]

/-- Witness for C10 at a concrete request and limit -1. -/
theorem C10_negative_limit_witness :
    0 < 1 ∧ (matchProviders inputEmptyPool).length ≤ 1 ∧
      getTopProviders inputEmptyPool (-((1 : ℕ) : ℤ)) = [] := by
  have hlen : (matchProviders inputEmptyPool).length ≤ 1 := by
    rw [show matchProviders inputEmptyPool = [] from rfl]
    norm_num
  exact ⟨by norm_num, hlen,
    (C10_negative_limit inputEmptyPool 1 (by norm_num)).2 hlen⟩

end JobMatch
